import Mathlib

/-!
Shallow embedding of the diagnostics-and-fix engine of
`crates/ra_ide_api/src/diagnostics.rs` (with the consumed hir/syntax
interfaces it depends on modelled as abstract query results).

The syntax-tree model mirrors rowan of that era: every token is a node,
a node has a kind and children, leaves carry source text, and a node's
text range is determined by the widths of the nodes to its left
(children of a node tile the node's range exactly).  A node *in* a tree
is addressed by its path of child indices from the root.
-/

namespace RaIde

/-- The subset of `ra_syntax::SyntaxKind` the diagnostics code inspects,
plus representative token/expression kinds. -/
inductive SyntaxKind where
  | SOURCE_FILE
  | USE_ITEM
  | USE_TREE
  | USE_TREE_LIST
  | PATH
  | PATH_SEGMENT
  | SELF_KW
  | COLONCOLON
  | NAME_REF
  | NAME
  | STRUCT_LIT
  | NAMED_FIELD_LIST
  | NAMED_FIELD
  | PATH_EXPR
  | LITERAL
  | CALL_EXPR
  | FN_DEF
  | WHITESPACE
  | L_CURLY
  | R_CURLY
  | COLON
  | COMMA
  | SEMI
  | USE_KW
  | ERROR_NODE
  | OTHER_KIND
  deriving DecidableEq

/-- `ast::Expr::cast` succeeds on expression kinds; the model keeps a
representative subset. -/
def SyntaxKind.isExprKind : SyntaxKind → Bool
  | SyntaxKind.PATH_EXPR => true
  | SyntaxKind.LITERAL => true
  | SyntaxKind.CALL_EXPR => true
  | _ => false

/-- Green tree: leaves are token nodes carrying their exact source text. -/
inductive SyntaxTree where
  | leaf (kind : SyntaxKind) (text : String)
  | node (kind : SyntaxKind) (children : List SyntaxTree)

mutual
def SyntaxTree.decEq : (a b : SyntaxTree) → Decidable (a = b)
  | SyntaxTree.leaf k s, SyntaxTree.leaf k' s' =>
      if h1 : k = k' then
        if h2 : s = s' then isTrue (by rw [h1, h2])
        else isFalse (by intro h; injection h; exact h2 ‹_›)
      else isFalse (by intro h; injection h; exact h1 ‹_›)
  | SyntaxTree.leaf _ _, SyntaxTree.node _ _ => isFalse (by intro h; exact SyntaxTree.noConfusion h)
  | SyntaxTree.node _ _, SyntaxTree.leaf _ _ => isFalse (by intro h; exact SyntaxTree.noConfusion h)
  | SyntaxTree.node k cs, SyntaxTree.node k' cs' =>
      if h1 : k = k' then
        match SyntaxTree.decEqList cs cs' with
        | isTrue h2 => isTrue (by rw [h1, h2])
        | isFalse h2 => isFalse (by intro h; injection h; exact h2 ‹_›)
      else isFalse (by intro h; injection h; exact h1 ‹_›)
def SyntaxTree.decEqList : (a b : List SyntaxTree) → Decidable (a = b)
  | [], [] => isTrue rfl
  | [], _ :: _ => isFalse (by intro h; exact List.noConfusion h)
  | _ :: _, [] => isFalse (by intro h; exact List.noConfusion h)
  | c :: cs, c' :: cs' =>
      match SyntaxTree.decEq c c', SyntaxTree.decEqList cs cs' with
      | isTrue h1, isTrue h2 => isTrue (by rw [h1, h2])
      | isFalse h1, _ => isFalse (by intro h; injection h; exact h1 ‹_›)
      | _, isFalse h2 => isFalse (by intro h; injection h; exact h2 ‹_›)
end

instance : DecidableEq SyntaxTree := SyntaxTree.decEq

def SyntaxTree.kindOf : SyntaxTree → SyntaxKind
  | SyntaxTree.leaf k _ => k
  | SyntaxTree.node k _ => k

def SyntaxTree.childrenOf : SyntaxTree → List SyntaxTree
  | SyntaxTree.leaf _ _ => []
  | SyntaxTree.node _ cs => cs

mutual
/-- Width of a node = length of the source text it covers. -/
def SyntaxTree.widthOf : SyntaxTree → Nat
  | SyntaxTree.leaf _ s => s.length
  | SyntaxTree.node _ cs => SyntaxTree.sumWidths cs
def SyntaxTree.sumWidths : List SyntaxTree → Nat
  | [] => 0
  | c :: cs => SyntaxTree.widthOf c + SyntaxTree.sumWidths cs
end

mutual
/-- Exact source text of a node (`SyntaxNode::text().to_string()`). -/
def SyntaxTree.textOf : SyntaxTree → String
  | SyntaxTree.leaf _ s => s
  | SyntaxTree.node _ cs => SyntaxTree.textsOf cs
def SyntaxTree.textsOf : List SyntaxTree → String
  | [] => ""
  | c :: cs => SyntaxTree.textOf c ++ SyntaxTree.textsOf cs
end

/-- Half-open text range `[start, stop)` (`ra_syntax::TextRange`). -/
structure TextRange where
  start : Nat
  stop : Nat
  deriving DecidableEq

/-- Child `i` of a children list, together with its offset relative to
the parent's start (children tile the parent's range). -/
def getChildWithOffset : List SyntaxTree → Nat → Option (SyntaxTree × Nat)
  | [], _ => none
  | c :: _, 0 => some (c, 0)
  | c :: cs, Nat.succ i =>
      (getChildWithOffset cs i).map (fun r => (r.1, SyntaxTree.widthOf c + r.2))

/-- Resolve a path of child indices to the node it addresses and that
node's absolute start offset. -/
def nodeAt? : SyntaxTree → List Nat → Option (SyntaxTree × Nat)
  | t, [] => some (t, 0)
  | SyntaxTree.leaf _ _, _ :: _ => none
  | SyntaxTree.node _ cs, i :: p =>
      match getChildWithOffset cs i with
      | none => none
      | some (c, co) => (nodeAt? c p).map (fun r => (r.1, co + r.2))

def subtree? (root : SyntaxTree) (p : List Nat) : Option SyntaxTree :=
  (nodeAt? root p).map (fun r => r.1)

/-- `SyntaxNode::range()` of the node addressed by `p`. -/
def rangeOf (root : SyntaxTree) (p : List Nat) : Option TextRange :=
  (nodeAt? root p).map (fun r => ⟨r.2, r.2 + SyntaxTree.widthOf r.1⟩)

/-- `SyntaxNode::parent()`. -/
def parentPath? : List Nat → Option (List Nat)
  | [] => none
  | p => some p.dropLast

/-- `SyntaxNode::prev_sibling()`: decrement the last child index. -/
def prevSiblingPath? (p : List Nat) : Option (List Nat) :=
  match p.getLast? with
  | some (Nat.succ i) => some (p.dropLast ++ [i])
  | _ => none

mutual
/-- Paths of all descendants in preorder, the node itself first
(`SyntaxNode::descendants()`). -/
def descendantPaths : SyntaxTree → List (List Nat)
  | SyntaxTree.leaf _ _ => [[]]
  | SyntaxTree.node _ cs => [] :: descendantPathsAux 0 cs
def descendantPathsAux : Nat → List SyntaxTree → List (List Nat)
  | _, [] => []
  | i, c :: cs =>
      (descendantPaths c).map (fun q => i :: q) ++ descendantPathsAux (i + 1) cs
end

/-- First child of the given kind (`AstChildren`-style `child_opt`). -/
def childOfKind (t : SyntaxTree) (k : SyntaxKind) : Option SyntaxTree :=
  t.childrenOf.find? (fun c => c.kindOf = k)

/-- `SyntaxNode::first_child()`. -/
def firstChild (t : SyntaxTree) : Option SyntaxTree :=
  t.childrenOf.head?

/-- Children of a node paired with their absolute start offsets, the
first child starting at `off`. -/
def childrenWithOffsets (off : Nat) : List SyntaxTree → List (SyntaxTree × Nat)
  | [] => []
  | c :: cs => (c, off) :: childrenWithOffsets (off + SyntaxTree.widthOf c) cs

/-!  ## Edit model (`ra_text_edit`, `FileSystemEdit`, `SourceChange`)  -/

abbrev FileId := Nat
abbrev SourceRootId := Nat

/-- `RelativePathBuf`, as its list of components; `join` is append. -/
abbrev RelPath := List String

/-- One atomic operation of a `TextEdit`: delete `delete` and put
`insert` in its place.  `TextEditBuilder::delete r` is `⟨r, ""⟩`;
`TextEditBuilder::insert off s` is `⟨⟨off, off⟩, s⟩`. -/
structure AtomicEdit where
  delete : TextRange
  insert : String
  deriving DecidableEq

def AtomicEdit.deleteRange (r : TextRange) : AtomicEdit := ⟨r, ""⟩

def AtomicEdit.insertAt (off : Nat) (s : String) : AtomicEdit := ⟨⟨off, off⟩, s⟩

/-- A `TextEdit` is the list of atomic edits a `TextEditBuilder`
accumulated, in the order the builder received them. -/
abbrev TextEdit := List AtomicEdit

inductive FileSystemEdit where
  | CreateFile (sourceRoot : SourceRootId) (path : RelPath)
  | MoveFile (src : FileId) (dstSourceRoot : SourceRootId) (dstPath : RelPath)
  deriving DecidableEq

structure SourceFileEdit where
  fileId : FileId
  edit : TextEdit
  deriving DecidableEq

structure SourceChange where
  label : String
  sourceFileEdits : List SourceFileEdit
  fileSystemEdits : List FileSystemEdit
  cursorPosition : Option (FileId × Nat)
  deriving DecidableEq

inductive Severity where
  | Error
  | WeakWarning
  deriving DecidableEq

structure Diagnostic where
  range : TextRange
  message : String
  severity : Severity
  fix : Option SourceChange
  deriving DecidableEq

/-!  ## Consumed semantic interfaces (hir / ra_db query results)

`Module` and `Function` are salsa ids; the queries the diagnostics code
performs on them are modelled as fields of `RootDatabase`.  -/

abbrev Module := Nat
abbrev Function := Nat

/-- `ra_syntax::Location` of a parse error. -/
inductive Location where
  | Offset (offset : Nat)
  | Range (range : TextRange)
  deriving DecidableEq

/-- A parse error attached to a `SourceFile`: its location and its
`Display` rendering. -/
structure SyntaxError where
  location : Location
  rendered : String
  deriving DecidableEq

/-- `db.parse(file_id)`: the tree plus its attached parse errors. -/
structure SourceFile where
  tree : SyntaxTree
  errors : List SyntaxError

/-- `hir::Problem`. -/
inductive Problem where
  | UnresolvedModule (candidate : RelPath)
  | NotDirOwner (moveTo : RelPath) (candidate : RelPath)
  deriving DecidableEq

/-- The name node a `Problem` is attached to; the diagnostics code only
reads its `range()`. -/
structure NameNode where
  range : TextRange
  deriving DecidableEq

/-- `hir::ModuleDef`, collapsed to what `check_module` matches on. -/
inductive ModuleDef where
  | Function (f : Function)
  | Other
  deriving DecidableEq

/-- `hir::diagnostics::FunctionDiagnostic`. -/
inductive FunctionDiagnostic where
  | NoSuchField (expr : Nat) (field : Nat)
  deriving DecidableEq

/-- `SyntaxNodePtr`: a pointer into a tree; `to_node` resolves it to the
node covering exactly this range, so the resolved node's range is the
pointer's range. -/
structure SyntaxNodePtr where
  range : TextRange
  deriving DecidableEq

/-- `BodySourceMap`: the partial body-to-syntax lookup
(`field_syntax(expr, field)`). -/
structure BodySourceMap where
  fieldSyntax : Nat → Nat → Option SyntaxNodePtr

/-- `function.source(db)`: the file, the syntax tree that file parses
to, and the path of the `FN_DEF` node inside it. -/
structure FunctionSource where
  fileId : FileId
  root : SyntaxTree
  fnPath : List Nat

/-- The query surface of `RootDatabase` that `diagnostics.rs` consumes. -/
structure RootDatabase where
  parse : FileId → SourceFile
  moduleFromFileId : FileId → Option Module
  fileSourceRoot : FileId → SourceRootId
  moduleDeclarations : Module → List ModuleDef
  moduleProblems : Module → List (NameNode × Problem)
  functionSource : Function → FunctionSource
  functionDiagnostics : Function → List FunctionDiagnostic
  bodySourceMap : Function → BodySourceMap

/-!  ## The checkers of `diagnostics.rs`

Each Rust checker takes an accumulator and pushes diagnostics; the
embedding returns the list of diagnostics the call appends.  A Rust
function that can `panic!` (the `unwrap` in `check_function`) returns
`Option`, `none` standing for the panic.  -/

/-- `location_to_range` inside `syntax_errors`. -/
def location_to_range : Location → TextRange
  | Location.Offset offset => ⟨offset, offset + 1⟩
  | Location.Range range => range

/-- `syntax_errors`: one Error diagnostic per parse error, no fix. -/
def syntax_errors (source_file : SourceFile) : List Diagnostic :=
  source_file.errors.map (fun err =>
    { range := location_to_range err.location
      message := "Syntax Error: " ++ err.rendered
      severity := Severity.Error
      fix := none })

/-- `use_tree_list.use_trees()`: the children that cast to `UseTree`,
with their child indices. -/
def useTreeChildren (cs : List SyntaxTree) : List (Nat × SyntaxTree) :=
  cs.enum.filter (fun ic => ic.2.kindOf = SyntaxKind.USE_TREE)

/-- `text_edit_for_remove_unnecessary_braces_with_self_in_use_statement`:
given the path of the single use tree inside the list, if its path is
the bare `self` keyword, delete from the start of the use-tree-list
node's previous sibling to the end of the list node. -/
def text_edit_for_remove_unnecessary_braces_with_self_in_use_statement
    (root : SyntaxTree) (singleUseTreePath : List Nat) : Option TextEdit := do
  let single_use_tree ← subtree? root singleUseTreePath
  let use_tree_list_path ← parentPath? singleUseTreePath
  let path ← childOfKind single_use_tree SyntaxKind.PATH
  let segment ← childOfKind path SyntaxKind.PATH_SEGMENT
  let fc ← firstChild segment
  if fc.kindOf = SyntaxKind.SELF_KW then
    let sibPath ← prevSiblingPath? use_tree_list_path
    let sibRange ← rangeOf root sibPath
    let listRange ← rangeOf root use_tree_list_path
    let range : TextRange := ⟨sibRange.start, listRange.stop⟩
    return [AtomicEdit.deleteRange range]
  else
    none

/-- `check_unnecessary_braces_in_use_statement`, on the node at path
`p`: fires exactly when the node is a `USE_TREE_LIST` with a single
`UseTree` child. -/
def check_unnecessary_braces_in_use_statement
    (file_id : FileId) (root : SyntaxTree) (p : List Nat) : List Diagnostic :=
  match nodeAt? root p with
  | none => []
  | some (t, off) =>
    if t.kindOf = SyntaxKind.USE_TREE_LIST then
      match useTreeChildren t.childrenOf with
      | [(i, single_use_tree)] =>
        let range : TextRange := ⟨off, off + t.widthOf⟩
        let edit :=
          match text_edit_for_remove_unnecessary_braces_with_self_in_use_statement
              root (p ++ [i]) with
          | some e => e
          | none =>
            let to_replace := single_use_tree.textOf
            [AtomicEdit.deleteRange range, AtomicEdit.insertAt range.start to_replace]
        [{ range := range
           message := "Unnecessary braces in use statement"
           severity := Severity.WeakWarning
           fix := some
             { label := "Remove unnecessary braces"
               sourceFileEdits := [{ fileId := file_id, edit := edit }]
               fileSystemEdits := []
               cursorPosition := none } }]
      | _ => []
    else []

/-- The diagnostic `check_struct_shorthand_initialization` pushes for a
redundant named field at offset `off`. -/
def shorthandDiagnostic (file_id : FileId) (field : SyntaxTree) (off : Nat)
    (field_name : String) : Diagnostic :=
  let range : TextRange := ⟨off, off + field.widthOf⟩
  { range := range
    message := "Shorthand struct initialization"
    severity := Severity.WeakWarning
    fix := some
      { label := "use struct shorthand initialization"
        sourceFileEdits :=
          [{ fileId := file_id
             edit := [AtomicEdit.deleteRange range, AtomicEdit.insertAt range.start field_name] }]
        fileSystemEdits := []
        cursorPosition := none } }

/-- The per-field body of the `for named_field in named_field_list.fields()`
loop: a diagnostic exactly when the field has a name and an expression
whose texts coincide. -/
def shorthandFieldCheck (file_id : FileId) : SyntaxTree × Nat → Option Diagnostic :=
  fun fo =>
    if fo.1.kindOf = SyntaxKind.NAMED_FIELD then
      match childOfKind fo.1 SyntaxKind.NAME_REF,
            fo.1.childrenOf.find? (fun c => c.kindOf.isExprKind) with
      | some name_ref, some expr =>
        let field_name := name_ref.textOf
        let field_expr := expr.textOf
        if field_name = field_expr then
          some (shorthandDiagnostic file_id fo.1 fo.2 field_name)
        else none
      | _, _ => none
    else none

/-- `check_struct_shorthand_initialization`, on the node at path `p`. -/
def check_struct_shorthand_initialization
    (file_id : FileId) (root : SyntaxTree) (p : List Nat) : List Diagnostic :=
  match nodeAt? root p with
  | none => []
  | some (t, off) =>
    if t.kindOf = SyntaxKind.STRUCT_LIT then
      match (childrenWithOffsets off t.childrenOf).find?
          (fun co => co.1.kindOf = SyntaxKind.NAMED_FIELD_LIST) with
      | none => []
      | some (nfl, nflOff) =>
        (childrenWithOffsets nflOff nfl.childrenOf).filterMap (shorthandFieldCheck file_id)
    else []

/-- The diagnostic the `for (name_node, problem)` loop of `check_module`
pushes for one problem. -/
def problemDiagnostic (source_root : SourceRootId) (file_id : FileId)
    (np : NameNode × Problem) : Diagnostic :=
  match np.2 with
  | Problem.UnresolvedModule candidate =>
    { range := np.1.range
      message := "unresolved module"
      severity := Severity.Error
      fix := some
        { label := "create module"
          sourceFileEdits := []
          fileSystemEdits := [FileSystemEdit.CreateFile source_root candidate]
          cursorPosition := none } }
  | Problem.NotDirOwner move_to candidate =>
    { range := np.1.range
      message := "can't declare module at this location"
      severity := Severity.Error
      fix := some
        { label := "move file and create module"
          sourceFileEdits := []
          fileSystemEdits :=
            [FileSystemEdit.MoveFile file_id source_root move_to,
             FileSystemEdit.CreateFile source_root (move_to ++ candidate)]
          cursorPosition := none } }

/-- Prefix paths of `p`, longest (the node itself) first:
`SyntaxNode::ancestors()`. -/
def ancestorPaths (p : List Nat) : List (List Nat) :=
  (List.range (p.length + 1)).reverse.map (fun n => p.take n)

/-- `fn_def.syntax().ancestors().find_map(ast::SourceFile::cast)`. -/
def findSourceFileAncestor (root : SyntaxTree) (p : List Nat) : Option (List Nat) :=
  (ancestorPaths p).find? (fun q =>
    match subtree? root q with
    | some t => t.kindOf = SyntaxKind.SOURCE_FILE
    | none => false)

/-- `check_function`.  `none` models the panic of the `unwrap` on the
enclosing source file; a source-map miss drops that instance only. -/
def check_function (db : RootDatabase) (function : Function) : Option (List Diagnostic) :=
  let src := db.functionSource function
  match findSourceFileAncestor src.root src.fnPath with
  | none => none
  | some _source_file =>
    let source_map := db.bodySourceMap function
    some ((db.functionDiagnostics function).filterMap (fun d =>
      match d with
      | FunctionDiagnostic.NoSuchField expr field =>
        match source_map.fieldSyntax expr field with
        | some ptr =>
          some { message := "no such field"
                 range := ptr.range
                 severity := Severity.Error
                 fix := none }
        | none => none))

/-- The `for decl in module.declarations(db)` loop of `check_module`:
run `check_function` on each declared function, in order; a panic in
one aborts the pass. -/
def collectFunctions (db : RootDatabase) : List ModuleDef → Option (List Diagnostic)
  | [] => some []
  | ModuleDef.Function f :: rest => do
      let ds ← check_function db f
      let rs ← collectFunctions db rest
      return ds ++ rs
  | ModuleDef.Other :: rest => collectFunctions db rest

/-- The problems half of `check_module`: one diagnostic per reported
problem, in order. -/
def moduleProblemDiagnostics (db : RootDatabase) (file_id : FileId)
    (module : Module) : List Diagnostic :=
  (db.moduleProblems module).map (problemDiagnostic (db.fileSourceRoot file_id) file_id)

/-- `check_module`: the declarations loop (function diagnostics) runs
first, then the problems loop. -/
def check_module (db : RootDatabase) (file_id : FileId) (module : Module) :
    Option (List Diagnostic) :=
  (collectFunctions db (db.moduleDeclarations module)).map
    (fun fnDiags => fnDiags ++ moduleProblemDiagnostics db file_id module)

/-- The `for node in source_file.syntax().descendants()` loop: both
per-node checkers on every descendant, in preorder. -/
def nodeDiagnostics (file_id : FileId) (tree : SyntaxTree) : List Diagnostic :=
  (descendantPaths tree).flatMap (fun p =>
    check_unnecessary_braces_in_use_statement file_id tree p ++
    check_struct_shorthand_initialization file_id tree p)

/-- `diagnostics`: the collector. -/
def diagnostics (db : RootDatabase) (file_id : FileId) : Option (List Diagnostic) :=
  let source_file := db.parse file_id
  let res := syntax_errors source_file ++ nodeDiagnostics file_id source_file.tree
  match db.moduleFromFileId file_id with
  | some m => (check_module db file_id m).map (fun md => res ++ md)
  | none => some res

/-!  ## Concrete instances (parses of the test inputs, an example database)  -/

/-- The parse of `use a::{self};`. -/
def exUseSelfTree : SyntaxTree :=
  SyntaxTree.node SyntaxKind.SOURCE_FILE [
    SyntaxTree.node SyntaxKind.USE_ITEM [
      SyntaxTree.leaf SyntaxKind.USE_KW "use", SyntaxTree.leaf SyntaxKind.WHITESPACE " ",
      SyntaxTree.node SyntaxKind.USE_TREE [
        SyntaxTree.node SyntaxKind.PATH
          [SyntaxTree.node SyntaxKind.PATH_SEGMENT [SyntaxTree.leaf SyntaxKind.NAME_REF "a"]],
        SyntaxTree.leaf SyntaxKind.COLONCOLON "::",
        SyntaxTree.node SyntaxKind.USE_TREE_LIST [
          SyntaxTree.leaf SyntaxKind.L_CURLY "\x7b",
          SyntaxTree.node SyntaxKind.USE_TREE
            [SyntaxTree.node SyntaxKind.PATH
              [SyntaxTree.node SyntaxKind.PATH_SEGMENT [SyntaxTree.leaf SyntaxKind.SELF_KW "self"]]],
          SyntaxTree.leaf SyntaxKind.R_CURLY "\x7d"
        ]
      ],
      SyntaxTree.leaf SyntaxKind.SEMI ";"
    ]
  ]

/-- The parse of `use a::{c};`. -/
def exUseCTree : SyntaxTree :=
  SyntaxTree.node SyntaxKind.SOURCE_FILE [
    SyntaxTree.node SyntaxKind.USE_ITEM [
      SyntaxTree.leaf SyntaxKind.USE_KW "use", SyntaxTree.leaf SyntaxKind.WHITESPACE " ",
      SyntaxTree.node SyntaxKind.USE_TREE [
        SyntaxTree.node SyntaxKind.PATH
          [SyntaxTree.node SyntaxKind.PATH_SEGMENT [SyntaxTree.leaf SyntaxKind.NAME_REF "a"]],
        SyntaxTree.leaf SyntaxKind.COLONCOLON "::",
        SyntaxTree.node SyntaxKind.USE_TREE_LIST [
          SyntaxTree.leaf SyntaxKind.L_CURLY "\x7b",
          SyntaxTree.node SyntaxKind.USE_TREE
            [SyntaxTree.node SyntaxKind.PATH
              [SyntaxTree.node SyntaxKind.PATH_SEGMENT [SyntaxTree.leaf SyntaxKind.NAME_REF "c"]]],
          SyntaxTree.leaf SyntaxKind.R_CURLY "\x7d"
        ]
      ],
      SyntaxTree.leaf SyntaxKind.SEMI ";"
    ]
  ]

/-- The named-field list of the record literal `A { a: a, b: c }`. -/
def exNamedFieldList : SyntaxTree :=
  SyntaxTree.node SyntaxKind.NAMED_FIELD_LIST [
    SyntaxTree.leaf SyntaxKind.L_CURLY "\x7b", SyntaxTree.leaf SyntaxKind.WHITESPACE " ",
    SyntaxTree.node SyntaxKind.NAMED_FIELD [
      SyntaxTree.leaf SyntaxKind.NAME_REF "a", SyntaxTree.leaf SyntaxKind.COLON ":",
      SyntaxTree.leaf SyntaxKind.WHITESPACE " ",
      SyntaxTree.node SyntaxKind.PATH_EXPR
        [SyntaxTree.node SyntaxKind.PATH
          [SyntaxTree.node SyntaxKind.PATH_SEGMENT [SyntaxTree.leaf SyntaxKind.NAME_REF "a"]]]],
    SyntaxTree.leaf SyntaxKind.COMMA ",", SyntaxTree.leaf SyntaxKind.WHITESPACE " ",
    SyntaxTree.node SyntaxKind.NAMED_FIELD [
      SyntaxTree.leaf SyntaxKind.NAME_REF "b", SyntaxTree.leaf SyntaxKind.COLON ":",
      SyntaxTree.leaf SyntaxKind.WHITESPACE " ",
      SyntaxTree.node SyntaxKind.PATH_EXPR
        [SyntaxTree.node SyntaxKind.PATH
          [SyntaxTree.node SyntaxKind.PATH_SEGMENT [SyntaxTree.leaf SyntaxKind.NAME_REF "c"]]]],
    SyntaxTree.leaf SyntaxKind.WHITESPACE " ", SyntaxTree.leaf SyntaxKind.R_CURLY "\x7d"
  ]

/-- The parse of the record literal `A { a: a, b: c }`. -/
def exStructLitTree : SyntaxTree :=
  SyntaxTree.node SyntaxKind.STRUCT_LIT [
    SyntaxTree.node SyntaxKind.PATH
      [SyntaxTree.node SyntaxKind.PATH_SEGMENT [SyntaxTree.leaf SyntaxKind.NAME_REF "A"]],
    SyntaxTree.leaf SyntaxKind.WHITESPACE " ",
    exNamedFieldList
  ]

/-- A source file containing just a function definition. -/
def exFnTree : SyntaxTree :=
  SyntaxTree.node SyntaxKind.SOURCE_FILE [SyntaxTree.node SyntaxKind.FN_DEF []]

/-- An example database: one file whose module declares one function
with two `NoSuchField` body diagnostics (only the first resolving
through the source map) and reports one `UnresolvedModule` problem. -/
def exDb : RootDatabase where
  parse := fun _ => { tree := exFnTree, errors := [] }
  moduleFromFileId := fun _ => some 0
  fileSourceRoot := fun _ => 0
  moduleDeclarations := fun _ => [ModuleDef.Function 0]
  moduleProblems := fun _ => [(⟨⟨20, 23⟩⟩, Problem.UnresolvedModule ["foo.rs"])]
  functionSource := fun _ => { fileId := 0, root := exFnTree, fnPath := [0] }
  functionDiagnostics := fun _ =>
    [FunctionDiagnostic.NoSuchField 0 0, FunctionDiagnostic.NoSuchField 1 0]
  bodySourceMap := fun _ =>
    { fieldSyntax := fun e f => if e = 0 && f = 0 then some ⟨⟨10, 12⟩⟩ else none }


/-!  ## Navigation lemmas  -/

theorem parentPath?_eq_dropLast (p : List Nat) (hp : p ≠ []) :
    parentPath? p = some p.dropLast := by
  cases p with
  | nil => exact absurd rfl hp
  | cons a l => rfl

theorem parentPath?_concat (l : List Nat) (a : Nat) :
    parentPath? (l ++ [a]) = some l := by
  rw [parentPath?_eq_dropLast _ (by simp), List.dropLast_concat]

theorem prevSiblingPath?_concat (l : List Nat) (i : Nat) :
    prevSiblingPath? (l ++ [i + 1]) = some (l ++ [i]) := by
  unfold prevSiblingPath?
  rw [List.getLast?_concat, List.dropLast_concat]

theorem sumWidths_append (a b : List SyntaxTree) :
    SyntaxTree.sumWidths (a ++ b) = SyntaxTree.sumWidths a + SyntaxTree.sumWidths b := by
  induction a with
  | nil => simp [SyntaxTree.sumWidths]
  | cons c cs ih => simp [SyntaxTree.sumWidths, ih, Nat.add_assoc]

theorem getChildWithOffset_concat (l : List SyntaxTree) (x : SyntaxTree) :
    getChildWithOffset (l ++ [x]) l.length = some (x, SyntaxTree.sumWidths l) := by
  induction l with
  | nil => rfl
  | cons c cs ih => simp [getChildWithOffset, ih, SyntaxTree.sumWidths]

theorem getChildWithOffset_eq_get? (cs : List SyntaxTree) (i : Nat) :
    getChildWithOffset cs i =
      (cs.get? i).map (fun c => (c, SyntaxTree.sumWidths (cs.take i))) := by
  induction cs generalizing i with
  | nil => simp [getChildWithOffset]
  | cons c cs ih =>
    cases i with
    | zero => simp [getChildWithOffset, SyntaxTree.sumWidths]
    | succ j =>
      simp [getChildWithOffset, ih, SyntaxTree.sumWidths, Option.map_map]
      rfl

theorem nodeAt?_append (t : SyntaxTree) (q r : List Nat) :
    nodeAt? t (q ++ r) =
      (nodeAt? t q).bind (fun x => (nodeAt? x.1 r).map (fun y => (y.1, x.2 + y.2))) := by
  induction q generalizing t with
  | nil =>
    cases h : nodeAt? t r <;> simp [nodeAt?, h]
  | cons i q ih =>
    cases t with
    | leaf k s => simp [nodeAt?]
    | node k cs =>
      simp only [List.cons_append, nodeAt?]
      cases h : getChildWithOffset cs i with
      | none => simp
      | some co =>
        obtain ⟨c, o⟩ := co
        simp only [List.append_eq]
        rw [ih c]
        cases h2 : nodeAt? c q with
        | none => simp [h2]
        | some x =>
          cases h3 : nodeAt? x.1 r with
          | none => simp [h2, h3]
          | some y => simp [h2, h3, Nat.add_assoc]


/-!  ## Claim theorems  -/

/-- C2: for every module problem, `check_module` produces exactly one
Diagnostic (one per entry of the problems list, via `problemDiagnostic`),
whose fix carries exactly one `CreateFile` at the candidate path under
the current file's source root (`UnresolvedModule`), or exactly one
`MoveFile` followed by exactly one `CreateFile` at `move_to.join(candidate)`
in that order (`NotDirOwner`), with no text edits in either case. -/
theorem module_problem_fix_shape (db : RootDatabase) (file_id : FileId) (m : Module) :
    moduleProblemDiagnostics db file_id m =
      (db.moduleProblems m).map (problemDiagnostic (db.fileSourceRoot file_id) file_id)
    ∧ (moduleProblemDiagnostics db file_id m).length = (db.moduleProblems m).length
    ∧ (∀ (sr : SourceRootId) (nn : NameNode) (candidate : RelPath),
        (problemDiagnostic sr file_id (nn, Problem.UnresolvedModule candidate)).fix =
          some { label := "create module", sourceFileEdits := [],
                 fileSystemEdits := [FileSystemEdit.CreateFile sr candidate],
                 cursorPosition := none })
    ∧ (∀ (sr : SourceRootId) (nn : NameNode) (move_to candidate : RelPath),
        (problemDiagnostic sr file_id (nn, Problem.NotDirOwner move_to candidate)).fix =
          some { label := "move file and create module", sourceFileEdits := [],
                 fileSystemEdits := [FileSystemEdit.MoveFile file_id sr move_to,
                                     FileSystemEdit.CreateFile sr (move_to ++ candidate)],
                 cursorPosition := none }) := by
  refine ⟨rfl, by simp [moduleProblemDiagnostics], fun sr nn c => rfl, fun sr nn mt c => rfl⟩

/-- C9: the collector is a pure function of its inputs: two runs on the
same database and file yield the same result, hence lists of the same
length that agree position by position in every component. -/
theorem diagnostics_deterministic (db : RootDatabase) (file_id : FileId)
    (r1 r2 : Option (List Diagnostic))
    (h1 : diagnostics db file_id = r1) (h2 : diagnostics db file_id = r2) : r1 = r2 :=
  h1 ▸ h2

/-- Witness for C9 at the example database. -/
theorem diagnostics_deterministic_witness :
    (some [(⟨⟨10, 12⟩, "no such field", Severity.Error, none⟩ : Diagnostic),
           ⟨⟨20, 23⟩, "unresolved module", Severity.Error,
             some ⟨"create module", [], [FileSystemEdit.CreateFile 0 ["foo.rs"]], none⟩⟩] :
      Option (List Diagnostic)) =
    some [⟨⟨10, 12⟩, "no such field", Severity.Error, none⟩,
          ⟨⟨20, 23⟩, "unresolved module", Severity.Error,
            some ⟨"create module", [], [FileSystemEdit.CreateFile 0 ["foo.rs"]], none⟩⟩] :=
  diagnostics_deterministic exDb 0 _ _ (by decide) (by decide)

/-- C1 counterexample: at `exDb` the collector returns the function's
`no such field` diagnostic *before* the module's `unresolved module`
problem diagnostic (first conjunct), so the list is *not* ordered as the
claim states — syntax errors, per-node diagnostics, module problems,
then per-function diagnostics (second conjunct: that predicted list,
whose per-function part is exactly the one `no such field` diagnostic
`check_function` produces here, differs from the output). -/
theorem diagnostics_order_claim_counterexample :
    diagnostics exDb 0 =
      some [⟨⟨10, 12⟩, "no such field", Severity.Error, none⟩,
            ⟨⟨20, 23⟩, "unresolved module", Severity.Error,
              some ⟨"create module", [], [FileSystemEdit.CreateFile 0 ["foo.rs"]], none⟩⟩]
    ∧ diagnostics exDb 0 ≠
      some (syntax_errors (exDb.parse 0) ++ nodeDiagnostics 0 (exDb.parse 0).tree ++
        moduleProblemDiagnostics exDb 0 0 ++
        [⟨⟨10, 12⟩, "no such field", Severity.Error, none⟩]) :=
  ⟨by decide, by decide⟩

/-- C1 amended: the collector's list is ordered as syntax errors, then
per-node checker diagnostics in traversal order, then the per-function
(`no such field`) diagnostics, then the module-placement problem
diagnostics (the code runs the declarations loop of `check_module`
before its problems loop). -/
theorem diagnostics_order_functions_before_problems
    (db : RootDatabase) (file_id : FileId) (m : Module) (fnDiags : List Diagnostic)
    (hm : db.moduleFromFileId file_id = some m)
    (hf : collectFunctions db (db.moduleDeclarations m) = some fnDiags) :
    diagnostics db file_id =
      some (syntax_errors (db.parse file_id) ++
        nodeDiagnostics file_id (db.parse file_id).tree ++
        (fnDiags ++ moduleProblemDiagnostics db file_id m)) := by
  simp only [diagnostics, check_module, hm, hf, List.append_assoc]
  rfl

/-- Witness for the amended C1 at the example database. -/
theorem diagnostics_order_functions_before_problems_witness :
    diagnostics exDb 0 =
      some (syntax_errors (exDb.parse 0) ++
        nodeDiagnostics 0 (exDb.parse 0).tree ++
        ([⟨⟨10, 12⟩, "no such field", Severity.Error, none⟩] ++
          moduleProblemDiagnostics exDb 0 0)) :=
  diagnostics_order_functions_before_problems exDb 0 0
    [⟨⟨10, 12⟩, "no such field", Severity.Error, none⟩] rfl (by decide)


theorem mem_ancestorPaths_nil (p : List Nat) : [] ∈ ancestorPaths p := by
  simp only [ancestorPaths, List.mem_map, List.mem_reverse, List.mem_range]
  exact ⟨0, Nat.succ_pos _, rfl⟩

theorem findSourceFileAncestor_isSome (root : SyntaxTree) (p : List Nat)
    (h : root.kindOf = SyntaxKind.SOURCE_FILE) :
    (findSourceFileAncestor root p).isSome := by
  rw [findSourceFileAncestor, List.find?_isSome]
  refine ⟨[], mem_ancestorPaths_nil p, ?_⟩
  simp [subtree?, nodeAt?, h]

theorem check_function_isSome (db : RootDatabase) (f : Function)
    (h : (db.functionSource f).root.kindOf = SyntaxKind.SOURCE_FILE) :
    (check_function db f).isSome := by
  unfold check_function
  cases hfs : findSourceFileAncestor (db.functionSource f).root (db.functionSource f).fnPath with
  | none =>
    have h1 := findSourceFileAncestor_isSome (db.functionSource f).root (db.functionSource f).fnPath h
    rw [hfs] at h1
    simp at h1
  | some q => simp [hfs]

theorem collectFunctions_isSome (db : RootDatabase)
    (h : ∀ f : Function, (db.functionSource f).root.kindOf = SyntaxKind.SOURCE_FILE)
    (decls : List ModuleDef) : (collectFunctions db decls).isSome := by
  induction decls with
  | nil => simp [collectFunctions]
  | cons d rest ih =>
    cases d with
    | Function f =>
      have h1 := check_function_isSome db f (h f)
      cases hcf : check_function db f with
      | none => rw [hcf] at h1; simp at h1
      | some ds =>
        cases hcr : collectFunctions db rest with
        | none => rw [hcr] at ih; simp at ih
        | some rs => simp [collectFunctions, hcf, hcr]
    | Other => simpa [collectFunctions] using ih

/-- C8: on well-formed inputs (every function's source file parses to a
tree whose root is a `SOURCE_FILE` node) no operation of the collector
panics: in particular `check_function` always resolves the enclosing
source file of a function definition, so the whole run returns a result.
Every other failure to match is encoded as producing no diagnostic, so
the checkers are total. -/
theorem diagnostics_no_panic_on_wellformed (db : RootDatabase) (file_id : FileId)
    (hwf : ∀ f : Function, (db.functionSource f).root.kindOf = SyntaxKind.SOURCE_FILE) :
    (diagnostics db file_id).isSome := by
  unfold diagnostics
  cases hm : db.moduleFromFileId file_id with
  | none => simp
  | some m =>
    have h1 := collectFunctions_isSome db hwf (db.moduleDeclarations m)
    cases hcf : collectFunctions db (db.moduleDeclarations m) with
    | none => rw [hcf] at h1; simp at h1
    | some fds => simp [check_module, hcf]

/-- Witness for C8 at the example database. -/
theorem diagnostics_no_panic_on_wellformed_witness : (diagnostics exDb 0).isSome :=
  diagnostics_no_panic_on_wellformed exDb 0 (fun _ => rfl)

/-- C3: the unnecessary-braces checker emits a diagnostic on a node if
and only if the node is a grouped import list (`USE_TREE_LIST`) whose
sub-import count is exactly one; with zero or two-or-more sub-imports it
emits nothing. -/
theorem unnecessary_braces_fires_iff_single_use_tree
    (file_id : FileId) (root : SyntaxTree) (p : List Nat) :
    check_unnecessary_braces_in_use_statement file_id root p ≠ [] ↔
      ∃ t off, nodeAt? root p = some (t, off) ∧
        t.kindOf = SyntaxKind.USE_TREE_LIST ∧
        (useTreeChildren t.childrenOf).length = 1 := by
  unfold check_unnecessary_braces_in_use_statement
  cases hn : nodeAt? root p with
  | none => simp
  | some tOff =>
    obtain ⟨t, off⟩ := tOff
    by_cases hk : t.kindOf = SyntaxKind.USE_TREE_LIST
    · simp only [hk, if_true]
      cases hu : useTreeChildren t.childrenOf with
      | nil => simp [hu, hk]
      | cons a tl =>
        obtain ⟨i, s⟩ := a
        cases tl with
        | nil => simp [hu, hk]
        | cons b tl2 => simp [hu]
    · simp [hk]


/-- C5: for a single-element grouped import list not handled by the
self-reference elision (the self fix returns none), the emitted
diagnostic has severity `WeakWarning`, message
`"Unnecessary braces in use statement"`, a fix labeled
`"Remove unnecessary braces"` whose only edits are text edits on the
current file, and the edit deletes the grouped-list node's range and
re-inserts the sole sub-import's exact source text at the range's start
offset. -/
theorem braces_generic_fix_delete_and_reinsert
    (file_id : FileId) (root : SyntaxTree) (p : List Nat)
    (t : SyntaxTree) (off i : Nat) (single_use_tree : SyntaxTree)
    (hn : nodeAt? root p = some (t, off))
    (hk : t.kindOf = SyntaxKind.USE_TREE_LIST)
    (hone : useTreeChildren t.childrenOf = [(i, single_use_tree)])
    (hself : text_edit_for_remove_unnecessary_braces_with_self_in_use_statement
        root (p ++ [i]) = none) :
    check_unnecessary_braces_in_use_statement file_id root p =
      [{ range := ⟨off, off + t.widthOf⟩
         message := "Unnecessary braces in use statement"
         severity := Severity.WeakWarning
         fix := some
           { label := "Remove unnecessary braces"
             sourceFileEdits :=
               [{ fileId := file_id
                  edit := [AtomicEdit.deleteRange ⟨off, off + t.widthOf⟩,
                           AtomicEdit.insertAt off single_use_tree.textOf] }]
             fileSystemEdits := []
             cursorPosition := none } }] := by
  unfold check_unnecessary_braces_in_use_statement
  rw [hn]
  simp only [hk, if_true, hone, hself]

/-- Witness for C5 at the parse of `use a::{c};`. -/
theorem braces_generic_fix_delete_and_reinsert_witness :
    check_unnecessary_braces_in_use_statement 0 exUseCTree [0, 2, 2] =
      [{ range := ⟨7, 10⟩
         message := "Unnecessary braces in use statement"
         severity := Severity.WeakWarning
         fix := some
           { label := "Remove unnecessary braces"
             sourceFileEdits :=
               [{ fileId := 0
                  edit := [AtomicEdit.deleteRange ⟨7, 10⟩, AtomicEdit.insertAt 7 "c"] }]
             fileSystemEdits := []
             cursorPosition := none } }] := by
  have h := braces_generic_fix_delete_and_reinsert 0 exUseCTree [0, 2, 2]
    (SyntaxTree.node SyntaxKind.USE_TREE_LIST
      [SyntaxTree.leaf SyntaxKind.L_CURLY "\x7b",
       SyntaxTree.node SyntaxKind.USE_TREE
         [SyntaxTree.node SyntaxKind.PATH
           [SyntaxTree.node SyntaxKind.PATH_SEGMENT [SyntaxTree.leaf SyntaxKind.NAME_REF "c"]]],
       SyntaxTree.leaf SyntaxKind.R_CURLY "\x7d"])
    7 1
    (SyntaxTree.node SyntaxKind.USE_TREE
      [SyntaxTree.node SyntaxKind.PATH
        [SyntaxTree.node SyntaxKind.PATH_SEGMENT [SyntaxTree.leaf SyntaxKind.NAME_REF "c"]]])
    (by decide) (by decide) (by decide) (by decide)
  exact h

/-- C7: for every `NoSuchField` body diagnostic of a function, when the
body-to-syntax source map resolves the field reference `check_function`
emits an Error diagnostic `"no such field"` at the resolved node's range
with no fix; an unresolvable instance is dropped while the remaining
instances are kept (the output is the `filterMap` of the resolution over
all instances), and a later function in the declarations list is still
processed. -/
theorem check_function_no_such_field_spec (db : RootDatabase) (f : Function)
    (l : List Diagnostic) (h : check_function db f = some l) :
    (l = (db.functionDiagnostics f).filterMap (fun d =>
      match d with
      | FunctionDiagnostic.NoSuchField expr field =>
        ((db.bodySourceMap f).fieldSyntax expr field).map (fun ptr =>
          { range := ptr.range
            message := "no such field"
            severity := Severity.Error
            fix := none })))
    ∧ ∀ rest, collectFunctions db (ModuleDef.Function f :: rest) =
        (collectFunctions db rest).map (fun rs => l ++ rs) := by
  constructor
  · unfold check_function at h
    dsimp only at h
    split at h
    · exact absurd h (by simp)
    · have h2 := Option.some.inj h
      rw [← h2]
      apply List.filterMap_congr
      intro d _
      cases d with
      | NoSuchField expr field =>
        cases hfs : (db.bodySourceMap f).fieldSyntax expr field <;> simp [hfs]
  · intro rest
    cases hcr : collectFunctions db rest <;> simp [collectFunctions, h, hcr]

/-- Witness for C7 at the example database: the first instance resolves,
the second is dropped, and a following function is still processed. -/
theorem check_function_no_such_field_spec_witness :
    ([(⟨⟨10, 12⟩, "no such field", Severity.Error, none⟩ : Diagnostic)] =
      (exDb.functionDiagnostics 0).filterMap (fun d =>
        match d with
        | FunctionDiagnostic.NoSuchField expr field =>
          ((exDb.bodySourceMap 0).fieldSyntax expr field).map (fun ptr =>
            { range := ptr.range
              message := "no such field"
              severity := Severity.Error
              fix := none })))
    ∧ ∀ rest, collectFunctions exDb (ModuleDef.Function 0 :: rest) =
        (collectFunctions exDb rest).map
          (fun rs => [(⟨⟨10, 12⟩, "no such field", Severity.Error, none⟩ : Diagnostic)] ++ rs) :=
  check_function_no_such_field_spec exDb 0
    [⟨⟨10, 12⟩, "no such field", Severity.Error, none⟩] (by decide)


theorem fix_none_syntax_errors (sf : SourceFile) :
    ∀ d ∈ syntax_errors sf, d.fix = none := by
  intro d hd
  simp only [syntax_errors, List.mem_map] at hd
  obtain ⟨err, _, rfl⟩ := hd
  rfl

theorem fix_cursor_braces (file_id : FileId) (root : SyntaxTree) (p : List Nat) :
    ∀ d ∈ check_unnecessary_braces_in_use_statement file_id root p,
      ∀ sc, d.fix = some sc → sc.cursorPosition = none := by
  intro d hd sc hsc
  unfold check_unnecessary_braces_in_use_statement at hd
  repeat' split at hd
  all_goals first
    | exact absurd hd (List.not_mem_nil d)
    | (rw [List.mem_singleton] at hd
       subst hd
       injection hsc with h2
       rw [← h2])

theorem shorthandFieldCheck_cursor (file_id : FileId) (fo : SyntaxTree × Nat)
    (d : Diagnostic) (h : shorthandFieldCheck file_id fo = some d) :
    ∀ sc, d.fix = some sc → sc.cursorPosition = none := by
  intro sc hsc
  unfold shorthandFieldCheck at h
  repeat' split at h
  all_goals try exact Option.noConfusion h
  all_goals dsimp only at h
  all_goals split at h
  all_goals try exact Option.noConfusion h
  all_goals
    (have h1 := Option.some.inj h
     subst h1
     injection hsc with h2
     rw [← h2])

theorem fix_cursor_shorthand (file_id : FileId) (root : SyntaxTree) (p : List Nat) :
    ∀ d ∈ check_struct_shorthand_initialization file_id root p,
      ∀ sc, d.fix = some sc → sc.cursorPosition = none := by
  intro d hd sc hsc
  unfold check_struct_shorthand_initialization at hd
  repeat' split at hd
  all_goals first
    | exact absurd hd (List.not_mem_nil d)
    | (rw [List.mem_filterMap] at hd
       obtain ⟨fo, _, hfo⟩ := hd
       exact shorthandFieldCheck_cursor file_id fo d hfo sc hsc)

theorem fix_cursor_nodeDiagnostics (file_id : FileId) (tree : SyntaxTree) :
    ∀ d ∈ nodeDiagnostics file_id tree,
      ∀ sc, d.fix = some sc → sc.cursorPosition = none := by
  intro d hd sc hsc
  unfold nodeDiagnostics at hd
  rw [List.mem_flatMap] at hd
  obtain ⟨p, _, hp⟩ := hd
  rcases List.mem_append.mp hp with h1 | h2
  · exact fix_cursor_braces file_id tree p d h1 sc hsc
  · exact fix_cursor_shorthand file_id tree p d h2 sc hsc

theorem problemDiagnostic_cursor (sr : SourceRootId) (file_id : FileId)
    (np : NameNode × Problem) :
    ∀ sc, (problemDiagnostic sr file_id np).fix = some sc → sc.cursorPosition = none := by
  intro sc hsc
  obtain ⟨nn, prob⟩ := np
  cases prob with
  | UnresolvedModule c =>
    injection hsc with h2
    rw [← h2]
  | NotDirOwner mt c =>
    injection hsc with h2
    rw [← h2]

theorem check_function_fix_none (db : RootDatabase) (f : Function)
    (l : List Diagnostic) (h : check_function db f = some l) :
    ∀ d ∈ l, d.fix = none := by
  intro d hd
  unfold check_function at h
  dsimp only at h
  split at h
  · exact absurd h (by simp)
  · have h1 := Option.some.inj h
    subst h1
    rw [List.mem_filterMap] at hd
    obtain ⟨a, _, ha⟩ := hd
    cases a with
    | NoSuchField expr field =>
      split at ha
      · have h2 := Option.some.inj ha
        subst h2
        rfl
      · exact absurd ha (by simp)

theorem collectFunctions_fix_none (db : RootDatabase) (decls : List ModuleDef)
    (l : List Diagnostic) (h : collectFunctions db decls = some l) :
    ∀ d ∈ l, d.fix = none := by
  induction decls generalizing l with
  | nil =>
    simp only [collectFunctions] at h
    have h1 := Option.some.inj h
    subst h1
    simp
  | cons dd rest ih =>
    cases dd with
    | Function f =>
      intro d hd
      simp only [collectFunctions] at h
      cases hcf : check_function db f with
      | none => rw [hcf] at h; exact absurd h (by simp)
      | some ds =>
        rw [hcf] at h
        cases hcr : collectFunctions db rest with
        | none => rw [hcr] at h; exact absurd h (by simp)
        | some rs =>
          rw [hcr] at h
          have h1 : ds ++ rs = l := by simpa using h
          subst h1
          rcases List.mem_append.mp hd with h2 | h3
          · exact check_function_fix_none db f ds hcf d h2
          · exact ih rs hcr d h3
    | Other =>
      simp only [collectFunctions] at h
      exact ih l h

/-- C10: every fix descriptor attached to any diagnostic the collector
produces has `cursor_position = None`. -/
theorem all_fixes_have_no_cursor_position (db : RootDatabase) (file_id : FileId)
    (l : List Diagnostic) (h : diagnostics db file_id = some l) :
    ∀ d ∈ l, ∀ sc, d.fix = some sc → sc.cursorPosition = none := by
  intro d hd sc hsc
  unfold diagnostics at h
  dsimp only at h
  split at h
  case h_1 m hm =>
    cases hcf : collectFunctions db (db.moduleDeclarations m) with
    | none => rw [check_module, hcf] at h; exact absurd h (by simp)
    | some fds =>
      rw [check_module, hcf] at h
      have h1 : syntax_errors (db.parse file_id) ++ nodeDiagnostics file_id (db.parse file_id).tree ++
          (fds ++ moduleProblemDiagnostics db file_id m) = l := by simpa using h
      subst h1
      rcases List.mem_append.mp hd with h2 | h3
      · rcases List.mem_append.mp h2 with h4 | h5
        · rw [fix_none_syntax_errors _ d h4] at hsc
          exact absurd hsc (by simp)
        · exact fix_cursor_nodeDiagnostics file_id _ d h5 sc hsc
      · rcases List.mem_append.mp h3 with h4 | h5
        · rw [collectFunctions_fix_none db _ fds hcf d h4] at hsc
          exact absurd hsc (by simp)
        · rw [moduleProblemDiagnostics, List.mem_map] at h5
          obtain ⟨np, _, hnp⟩ := h5
          subst hnp
          exact problemDiagnostic_cursor _ file_id np sc hsc
  case h_2 hm =>
    have h1 : syntax_errors (db.parse file_id) ++ nodeDiagnostics file_id (db.parse file_id).tree = l := by
      simpa using h
    subst h1
    rcases List.mem_append.mp hd with h2 | h3
    · rw [fix_none_syntax_errors _ d h2] at hsc
      exact absurd hsc (by simp)
    · exact fix_cursor_nodeDiagnostics file_id _ d h3 sc hsc

/-- Witness for C10 at the example database: the fix of the
`unresolved module` diagnostic the collector emits carries no cursor
position. -/
theorem all_fixes_have_no_cursor_position_witness :
    (⟨"create module", [], [FileSystemEdit.CreateFile 0 ["foo.rs"]], none⟩ :
      SourceChange).cursorPosition = none :=
  all_fixes_have_no_cursor_position exDb 0
    [⟨⟨10, 12⟩, "no such field", Severity.Error, none⟩,
     ⟨⟨20, 23⟩, "unresolved module", Severity.Error,
       some ⟨"create module", [], [FileSystemEdit.CreateFile 0 ["foo.rs"]], none⟩⟩]
    (by decide)
    ⟨⟨20, 23⟩, "unresolved module", Severity.Error,
      some ⟨"create module", [], [FileSystemEdit.CreateFile 0 ["foo.rs"]], none⟩⟩
    (by decide)
    ⟨"create module", [], [FileSystemEdit.CreateFile 0 ["foo.rs"]], none⟩
    (by decide)


/-- C6: on a record literal with a named-field list, the shorthand
checker emits exactly one Diagnostic per field whose value expression's
text equals the field's name (and none for any other field), each with
severity `WeakWarning`, message `"Shorthand struct initialization"`, and
its own fix labeled `"use struct shorthand initialization"` that deletes
the field's full range and re-inserts just the field name at the
range's start. -/
theorem struct_shorthand_one_diagnostic_per_redundant_field
    (file_id : FileId) (root : SyntaxTree) (p : List Nat)
    (t nfl : SyntaxTree) (off nflOff : Nat)
    (hn : nodeAt? root p = some (t, off))
    (hk : t.kindOf = SyntaxKind.STRUCT_LIT)
    (hfind : (childrenWithOffsets off t.childrenOf).find?
        (fun co => co.1.kindOf = SyntaxKind.NAMED_FIELD_LIST) = some (nfl, nflOff)) :
    check_struct_shorthand_initialization file_id root p =
      (childrenWithOffsets nflOff nfl.childrenOf).filterMap (fun fo =>
        match childOfKind fo.1 SyntaxKind.NAME_REF,
              fo.1.childrenOf.find? (fun c => c.kindOf.isExprKind) with
        | some name_ref, some expr =>
          if fo.1.kindOf = SyntaxKind.NAMED_FIELD ∧ name_ref.textOf = expr.textOf then
            some { range := ⟨fo.2, fo.2 + fo.1.widthOf⟩
                   message := "Shorthand struct initialization"
                   severity := Severity.WeakWarning
                   fix := some
                     { label := "use struct shorthand initialization"
                       sourceFileEdits :=
                         [{ fileId := file_id
                            edit := [AtomicEdit.deleteRange ⟨fo.2, fo.2 + fo.1.widthOf⟩,
                                     AtomicEdit.insertAt fo.2 name_ref.textOf] }]
                       fileSystemEdits := []
                       cursorPosition := none } }
          else none
        | _, _ => none) := by
  unfold check_struct_shorthand_initialization
  rw [hn]
  simp only [hk, if_true, hfind]
  apply List.filterMap_congr
  intro fo _
  unfold shorthandFieldCheck shorthandDiagnostic
  cases h1 : childOfKind fo.1 SyntaxKind.NAME_REF with
  | none =>
    by_cases hf : fo.1.kindOf = SyntaxKind.NAMED_FIELD <;> simp [hf]
  | some name_ref =>
    cases h2 : fo.1.childrenOf.find? (fun c => c.kindOf.isExprKind) with
    | none =>
      by_cases hf : fo.1.kindOf = SyntaxKind.NAMED_FIELD <;> simp [hf]
    | some expr =>
      by_cases hf : fo.1.kindOf = SyntaxKind.NAMED_FIELD
      · by_cases he : name_ref.textOf = expr.textOf <;> simp [hf, he]
      · simp [hf]


theorem useTreeChildren_singleton_get? (cs : List SyntaxTree) (i : Nat) (s : SyntaxTree)
    (h : useTreeChildren cs = [(i, s)]) : cs.get? i = some s := by
  have hmem : (i, s) ∈ useTreeChildren cs := by
    rw [h]
    exact List.mem_singleton_self _
  unfold useTreeChildren at hmem
  exact List.mk_mem_enum_iff_get?.mp (List.mem_of_mem_filter hmem)


/-- C4: for a single-element grouped import list whose sole sub-import's
path is exactly the `self` keyword, when a path (ending in its segment)
and the `::` token immediately precede the group inside the use tree,
the fix is a single delete edit spanning from the end of that segment to
the end of the group. -/
theorem braces_self_fix_single_delete_range
    (file_id : FileId) (root : SyntaxTree) (u : List Nat)
    (pcs : List SyntaxTree) (seg cn : SyntaxTree) (gcs : List SyntaxTree)
    (ou i : Nat) (sut sp ssg fc : SyntaxTree)
    (segRange gRange : TextRange)
    (hU : nodeAt? root u =
      some (SyntaxTree.node SyntaxKind.USE_TREE
        [SyntaxTree.node SyntaxKind.PATH (pcs ++ [seg]), cn,
         SyntaxTree.node SyntaxKind.USE_TREE_LIST gcs], ou))
    (hseg : seg.kindOf = SyntaxKind.PATH_SEGMENT)
    (hone : useTreeChildren gcs = [(i, sut)])
    (hsp : childOfKind sut SyntaxKind.PATH = some sp)
    (hss : childOfKind sp SyntaxKind.PATH_SEGMENT = some ssg)
    (hfc : firstChild ssg = some fc)
    (hkw : fc.kindOf = SyntaxKind.SELF_KW)
    (hsr : rangeOf root (u ++ [0, pcs.length]) = some segRange)
    (hgr : rangeOf root (u ++ [2]) = some gRange) :
    check_unnecessary_braces_in_use_statement file_id root (u ++ [2]) =
      [{ range := gRange
         message := "Unnecessary braces in use statement"
         severity := Severity.WeakWarning
         fix := some
           { label := "Remove unnecessary braces"
             sourceFileEdits :=
               [{ fileId := file_id
                  edit := [AtomicEdit.deleteRange ⟨segRange.stop, gRange.stop⟩] }]
             fileSystemEdits := []
             cursorPosition := none } }] := by
  have pnw : (SyntaxTree.node SyntaxKind.PATH (pcs ++ [seg])).widthOf =
      SyntaxTree.sumWidths pcs + seg.widthOf := by
    show SyntaxTree.sumWidths (pcs ++ [seg]) = _
    rw [sumWidths_append]
    simp [SyntaxTree.sumWidths, SyntaxTree.widthOf]
  -- the group node and its absolute offset
  have h2 : nodeAt? root (u ++ [2]) =
      some (SyntaxTree.node SyntaxKind.USE_TREE_LIST gcs,
        ou + (SyntaxTree.sumWidths pcs + seg.widthOf + cn.widthOf)) := by
    rw [nodeAt?_append, hU]
    simp [nodeAt?, getChildWithOffset, pnw]
  -- the `::` sibling and its absolute offset
  have h1 : nodeAt? root (u ++ [1]) =
      some (cn, ou + (SyntaxTree.sumWidths pcs + seg.widthOf)) := by
    rw [nodeAt?_append, hU]
    simp [nodeAt?, getChildWithOffset, pnw]
  -- the segment and its absolute offset
  have h0 : nodeAt? root (u ++ [0, pcs.length]) =
      some (seg, ou + SyntaxTree.sumWidths pcs) := by
    rw [nodeAt?_append, hU]
    simp [nodeAt?, getChildWithOffset, getChildWithOffset_concat]
  -- resolve the two given ranges
  rw [rangeOf, h0] at hsr
  rw [rangeOf, h2] at hgr
  have hsr' := Option.some.inj hsr
  have hgr' := Option.some.inj hgr
  subst hsr'
  subst hgr'
  -- the sole sub-import inside the group
  have hget : getChildWithOffset gcs i = some (sut, SyntaxTree.sumWidths (List.take i gcs)) := by
    rw [getChildWithOffset_eq_get?, useTreeChildren_singleton_get? gcs i sut hone]
    rfl
  have hsub : nodeAt? root ((u ++ [2]) ++ [i]) =
      some (sut, ou + (SyntaxTree.sumWidths pcs + seg.widthOf + cn.widthOf) +
        SyntaxTree.sumWidths (List.take i gcs)) := by
    rw [nodeAt?_append, h2]
    simp [nodeAt?, hget]
  have hprev : prevSiblingPath? (u ++ [2]) = some (u ++ [1]) := prevSiblingPath?_concat u 1
  have hedit : text_edit_for_remove_unnecessary_braces_with_self_in_use_statement root
      ((u ++ [2]) ++ [i]) =
      some [AtomicEdit.deleteRange ⟨ou + (SyntaxTree.sumWidths pcs + seg.widthOf),
        ou + (SyntaxTree.sumWidths pcs + seg.widthOf + cn.widthOf) +
          (SyntaxTree.node SyntaxKind.USE_TREE_LIST gcs).widthOf⟩] := by
    unfold text_edit_for_remove_unnecessary_braces_with_self_in_use_statement
    have hpar : parentPath? (u ++ [2, i]) = some (u ++ [2]) := by
      rw [show u ++ [2, i] = (u ++ [2]) ++ [i] by simp]
      exact parentPath?_concat (u ++ [2]) i
    rw [subtree?, hsub]
    simp [hpar, hsp, hss, hfc, hkw, hprev, rangeOf, h1, h2]
  unfold check_unnecessary_braces_in_use_statement
  rw [h2]
  simp only [SyntaxTree.kindOf, SyntaxTree.childrenOf, if_true, hone, hedit]
  simp [SyntaxTree.widthOf, Nat.add_assoc]


/-- Witness for C4 at the parse of `use a::{self};`. -/
theorem braces_self_fix_single_delete_range_witness :
    check_unnecessary_braces_in_use_statement 0 exUseSelfTree [0, 2, 2] =
      [{ range := ⟨7, 13⟩
         message := "Unnecessary braces in use statement"
         severity := Severity.WeakWarning
         fix := some
           { label := "Remove unnecessary braces"
             sourceFileEdits := [{ fileId := 0, edit := [AtomicEdit.deleteRange ⟨5, 13⟩] }]
             fileSystemEdits := []
             cursorPosition := none } }] := by
  have h := braces_self_fix_single_delete_range 0 exUseSelfTree [0, 2]
    [] (SyntaxTree.node SyntaxKind.PATH_SEGMENT [SyntaxTree.leaf SyntaxKind.NAME_REF "a"])
    (SyntaxTree.leaf SyntaxKind.COLONCOLON "::")
    [SyntaxTree.leaf SyntaxKind.L_CURLY "\x7b",
     SyntaxTree.node SyntaxKind.USE_TREE
       [SyntaxTree.node SyntaxKind.PATH
         [SyntaxTree.node SyntaxKind.PATH_SEGMENT [SyntaxTree.leaf SyntaxKind.SELF_KW "self"]]],
     SyntaxTree.leaf SyntaxKind.R_CURLY "\x7d"]
    4 1
    (SyntaxTree.node SyntaxKind.USE_TREE
      [SyntaxTree.node SyntaxKind.PATH
        [SyntaxTree.node SyntaxKind.PATH_SEGMENT [SyntaxTree.leaf SyntaxKind.SELF_KW "self"]]])
    (SyntaxTree.node SyntaxKind.PATH
      [SyntaxTree.node SyntaxKind.PATH_SEGMENT [SyntaxTree.leaf SyntaxKind.SELF_KW "self"]])
    (SyntaxTree.node SyntaxKind.PATH_SEGMENT [SyntaxTree.leaf SyntaxKind.SELF_KW "self"])
    (SyntaxTree.leaf SyntaxKind.SELF_KW "self")
    ⟨4, 5⟩ ⟨7, 13⟩
    (by decide) (by decide) (by decide) (by decide) (by decide) (by decide) (by decide)
    (by decide) (by decide)
  exact h

/-- Witness for C6 at the parse of `A { a: a, b: c }`: the redundant
field `a: a` yields a diagnostic, the field `b: c` yields none. -/
theorem struct_shorthand_one_diagnostic_per_redundant_field_witness :
    check_struct_shorthand_initialization 0 exStructLitTree [] =
      (childrenWithOffsets 2 exNamedFieldList.childrenOf).filterMap (fun fo =>
        match childOfKind fo.1 SyntaxKind.NAME_REF,
              fo.1.childrenOf.find? (fun c => c.kindOf.isExprKind) with
        | some name_ref, some expr =>
          if fo.1.kindOf = SyntaxKind.NAMED_FIELD ∧ name_ref.textOf = expr.textOf then
            some { range := ⟨fo.2, fo.2 + fo.1.widthOf⟩
                   message := "Shorthand struct initialization"
                   severity := Severity.WeakWarning
                   fix := some
                     { label := "use struct shorthand initialization"
                       sourceFileEdits :=
                         [{ fileId := 0
                            edit := [AtomicEdit.deleteRange ⟨fo.2, fo.2 + fo.1.widthOf⟩,
                                     AtomicEdit.insertAt fo.2 name_ref.textOf] }]
                       fileSystemEdits := []
                       cursorPosition := none } }
          else none
        | _, _ => none) :=
  struct_shorthand_one_diagnostic_per_redundant_field 0 exStructLitTree []
    exStructLitTree exNamedFieldList 0 2 (by decide) (by decide) (by decide)

end RaIde
